import Mathlib

/-!
Verification of the test-case extraction and scenario-synthesis pipeline of
the BDD generator (source: bdd_generator.py).  The Python functions are
shallowly embedded over lists of characters.  Regular-expression matching is
embedded by a small backtracking engine whose choice order mirrors the Python
re module (greedy quantifiers try longest first, lazy quantifiers shortest
first, leftmost match wins), restricted to the constructs appearing in the
patterns of the source.
-/

/-- Characters of a string literal, used to write embedded text concisely. -/
def strL (s : String) : List Char := s.data

/-- Python whitespace test for the ASCII range, as used by str.strip and the
regex class of whitespace characters. -/
def pyWs (c : Char) : Bool :=
  (c == ' ') || (c == '\t') || (c == '\n') || (c == '\r') ||
  (c == Char.ofNat 11) || (c == Char.ofNat 12)

/-- Decimal digit test, the regex class of digits. -/
def isDig (c : Char) : Bool := 48 ≤ c.toNat && c.toNat ≤ 57

/-- ASCII lowercasing, used for case-insensitive literal comparison. -/
def lowerAscii (c : Char) : Char :=
  if 65 ≤ c.toNat && c.toNat ≤ 90 then Char.ofNat (c.toNat + 32) else c

/-- Character comparison, optionally case-insensitive. -/
def chEq (ci : Bool) (a b : Char) : Bool :=
  if ci then lowerAscii a == lowerAscii b else a == b

/-- Test whether the literal occurs as a prefix of the text. -/
def litHere (ci : Bool) : List Char → List Char → Bool
  | [], _ => true
  | _ :: _, [] => false
  | a :: l, b :: s => chEq ci a b && litHere ci l s

/-- Test whether the literal occurs at the given offset of the text. -/
def litAt (s : List Char) (pos : Nat) (l : List Char) (ci : Bool) : Bool :=
  litHere ci l (s.drop pos)

/-- Python str.strip with no argument: drop whitespace from both ends. -/
def pyStrip (s : List Char) : List Char :=
  ((s.dropWhile pyWs).reverse.dropWhile pyWs).reverse

/-- Python str.split on a newline separator. -/
def splitNl : List Char → List (List Char)
  | [] => [[]]
  | c :: t =>
    if c = '\n' then [] :: splitNl t
    else
      match splitNl t with
      | [] => [[c]]
      | l :: ls => (c :: l) :: ls

/-- First index at which the pattern text occurs in the text, if any;
embeds Python str.find and the in operator on strings. -/
def firstIdx (s pat : List Char) : Option Nat :=
  (List.range (s.length + 1)).findSome?
    (fun p => if litAt s p pat false then some p else none)

/-- Containment of one string in another, the Python in operator. -/
def containsSeq (s pat : List Char) : Bool := (firstIdx s pat).isSome

/-- Numeric value of a digit string, the Python int conversion restricted to
the digit strings captured by the regex group of digits. -/
def natOfDigits (s : List Char) : Nat :=
  s.foldl (fun a c => a * 10 + (c.toNat - 48)) 0

/-- Length of the maximal whitespace run at an offset. -/
def wsRunLen (s : List Char) (pos : Nat) : Nat :=
  ((s.drop pos).takeWhile pyWs).length

/-- Length of the maximal digit run at an offset. -/
def digRunLen (s : List Char) (pos : Nat) : Nat :=
  ((s.drop pos).takeWhile isDig).length

/-- Slice of length k starting at an offset. -/
def seg (s : List Char) (pos k : Nat) : List Char := (s.drop pos).take k

/-- Python dollar anchor without the MULTILINE flag: end of the text, or just
before a newline that is the last character. -/
def pyDollar (s : List Char) (pos : Nat) : Bool :=
  (pos == s.length) || ((pos + 1 == s.length) && (s.get? pos == some '\n'))

/-- Regex constructs appearing in the patterns of the source: literals
(optionally case-insensitive), a single character, greedy whitespace star,
greedy captured or plain digit plus, lazy dot star under DOTALL (plain or
captured), and a zero-width lookahead given by a position predicate. -/
inductive RE where
  | lit : List Char → Bool → RE
  | ch : Char → RE
  | wsStar : RE
  | digitsGroup : RE
  | digitsPlus : RE
  | dotStarLazy : RE
  | groupLazy : RE
  | look : (List Char → Nat → Bool) → RE

/-- Backtracking matcher for a sequence of regex constructs at a fixed start
offset.  Returns the end offset and captured groups of the first match in
backtracking priority order: greedy quantifiers offer longer consumptions
first, lazy ones shorter first, mirroring the Python re engine. -/
def matchSeq (s : List Char) : List RE → Nat → List (List Char) →
    Option (Nat × List (List Char))
  | [], pos, gs => some (pos, gs)
  | RE.lit l ci :: rest, pos, gs =>
    if litAt s pos l ci then matchSeq s rest (pos + l.length) gs else none
  | RE.ch c :: rest, pos, gs =>
    if s.get? pos == some c then matchSeq s rest (pos + 1) gs else none
  | RE.wsStar :: rest, pos, gs =>
    ((List.range (wsRunLen s pos + 1)).reverse).findSome?
      (fun k => matchSeq s rest (pos + k) gs)
  | RE.digitsGroup :: rest, pos, gs =>
    (((List.range (digRunLen s pos)).reverse).map (fun k => k + 1)).findSome?
      (fun k => matchSeq s rest (pos + k) (gs ++ [seg s pos k]))
  | RE.digitsPlus :: rest, pos, gs =>
    (((List.range (digRunLen s pos)).reverse).map (fun k => k + 1)).findSome?
      (fun k => matchSeq s rest (pos + k) gs)
  | RE.dotStarLazy :: rest, pos, gs =>
    (List.range (s.length - pos + 1)).findSome?
      (fun k => matchSeq s rest (pos + k) gs)
  | RE.groupLazy :: rest, pos, gs =>
    (List.range (s.length - pos + 1)).findSome?
      (fun k => matchSeq s rest (pos + k) (gs ++ [seg s pos k]))
  | RE.look f :: rest, pos, gs =>
    if f s pos then matchSeq s rest pos gs else none

/-- Leftmost match of a pattern at or after a start offset: start, end and
captured groups. -/
def firstMatchFrom (p : List RE) (s : List Char) (pos : Nat) :
    Option (Nat × Nat × List (List Char)) :=
  (List.range (s.length + 1 - pos)).findSome?
    (fun d => (matchSeq s p (pos + d) []).map (fun r => (pos + d, r)))

/-- All non-overlapping leftmost matches, fueled; embeds re.findall, which
resumes scanning at the end of each match. -/
def reFindAllAux (p : List RE) (s : List Char) : Nat → Nat → List (List (List Char))
  | 0, _ => []
  | fuel + 1, pos =>
    match firstMatchFrom p s pos with
    | none => []
    | some (st, en, gs) =>
      gs :: reFindAllAux p s fuel (if en = st then en + 1 else en)

/-- Captured groups of every non-overlapping match, embeds re.findall. -/
def reFindAll (p : List RE) (s : List Char) : List (List (List Char)) :=
  reFindAllAux p s (s.length + 1) 0

/-- Pieces of the text between non-overlapping matches, embeds re.split for a
pattern without capture groups. -/
def reSplitAux (p : List RE) (s : List Char) : Nat → Nat → Nat → List (List Char)
  | 0, _, cut => [seg s cut (s.length - cut)]
  | fuel + 1, pos, cut =>
    match firstMatchFrom p s pos with
    | none => [seg s cut (s.length - cut)]
    | some (st, en, _) =>
      seg s cut (st - cut) :: reSplitAux p s fuel (if en = st then en + 1 else en) en

/-- Split of the text by a pattern, embeds re.split. -/
def reSplit (p : List RE) (s : List Char) : List (List Char) :=
  reSplitAux p s (s.length + 1) 0 0

/-- First captured group of the leftmost match, embeds re.search followed by
group(1). -/
def reSearchG1 (p : List RE) (s : List Char) : Option (List Char) :=
  (firstMatchFrom p s 0).bind (fun r => r.2.2.head?)

/-- Lookahead of the strict pattern before its result label: the literal
ExpectedResult: case-insensitively, or the dollar anchor. -/
def lookERci (s : List Char) (pos : Nat) : Bool :=
  litAt s pos (strL "ExpectedResult:") true || pyDollar s pos

/-- Lookahead closing the strict pattern: the literal S.No:
case-insensitively, or the dollar anchor. -/
def lookSNoci (s : List Char) (pos : Nat) : Bool :=
  litAt s pos (strL "S.No:") true || pyDollar s pos

/-- Lookahead of the tolerant description sub-pattern: a newline, the literal
StepAction:, or the dollar anchor (case-sensitive). -/
def lookDescEnd (s : List Char) (pos : Nat) : Bool :=
  (s.get? pos == some '\n') || litAt s pos (strL "StepAction:") false ||
  pyDollar s pos

/-- Lookahead of the tolerant step sub-pattern: the literal ExpectedResult:
or the dollar anchor (case-sensitive). -/
def lookStepEnd (s : List Char) (pos : Nat) : Bool :=
  litAt s pos (strL "ExpectedResult:") false || pyDollar s pos

/-- Lookahead of the tolerant result sub-pattern: a newline followed by
whitespace and the literal S.No:, or the dollar anchor (case-sensitive).
Since no whitespace character can begin the literal, the star inside the
lookahead can only consume the whole whitespace run. -/
def lookResEnd (s : List Char) (pos : Nat) : Bool :=
  ((s.get? pos == some '\n') &&
    litAt s (pos + 1 + wsRunLen s (pos + 1)) (strL "S.No:") false) ||
  pyDollar s pos

/-- Strict test-case pattern of strategy 1, line 335 of the source, compiled
with the DOTALL and IGNORECASE flags. -/
def strictPattern : List RE :=
  [RE.lit (strL "S.No:") true, RE.wsStar, RE.digitsGroup, RE.wsStar, RE.ch '\n',
   RE.dotStarLazy, RE.lit (strL "TestCasesDescription:") true, RE.wsStar,
   RE.groupLazy, RE.ch '\n',
   RE.dotStarLazy, RE.lit (strL "StepAction:") true, RE.wsStar,
   RE.groupLazy, RE.look lookERci,
   RE.dotStarLazy, RE.lit (strL "ExpectedResult:") true, RE.wsStar,
   RE.groupLazy, RE.look lookSNoci]

/-- Block-split pattern of strategy 2, line 358 of the source
(case-sensitive, no flags). -/
def blockSplitPattern : List RE :=
  [RE.ch '\n', RE.wsStar, RE.lit (strL "S.No:") false, RE.wsStar, RE.digitsPlus]

/-- Tolerant description sub-pattern of strategy 2, line 365 of the source. -/
def descSubPattern : List RE :=
  [RE.lit (strL "TestCasesDescription:") false, RE.wsStar, RE.groupLazy,
   RE.look lookDescEnd]

/-- Tolerant step sub-pattern of strategy 2, line 369 of the source. -/
def stepSubPattern : List RE :=
  [RE.lit (strL "StepAction:") false, RE.wsStar, RE.groupLazy,
   RE.look lookStepEnd]

/-- Tolerant result sub-pattern of strategy 2, line 373 of the source. -/
def resultSubPattern : List RE :=
  [RE.lit (strL "ExpectedResult:") false, RE.wsStar, RE.groupLazy,
   RE.look lookResEnd]

/-- De-numbering pass of strategy 1, lines 343 and 344 of the source:
re.sub with the MULTILINE flag removes, at every line start, a digit run, a
period and the following whitespace run.  The boolean records whether the
current offset is a line start. -/
def deNumAux : Nat → List Char → Bool → List Char
  | 0, s, _ => s
  | fuel + 1, s, atLS =>
    if atLS && (s.takeWhile isDig ≠ [] &&
        ((s.dropWhile isDig).head? == some '.')) then
      let r2 := (s.dropWhile isDig).tail
      let w := r2.takeWhile pyWs
      deNumAux fuel (r2.dropWhile pyWs) (w.getLast? == some '\n')
    else
      match s with
      | [] => []
      | c :: t => c :: deNumAux fuel t (c == '\n')

/-- De-numbering of step and result text, the MULTILINE re.sub of the
source. -/
def deNumber (s : List Char) : List Char := deNumAux s.length s true

/-- Structured test-case record, one row of the intermediate output: the
fields built by parse_comprehensive_test_cases in the source. -/
structure TestCaseRecord where
  userStoryId : List Char
  title : List Char
  sNo : Nat
  description : List Char
  stepAction : List Char
  expectedResult : List Char
deriving DecidableEq, Repr

/-- Fail-soft record returned for an error sentinel input, lines 324 to 331
of the source. -/
def sentinelRecord (usid title : List Char) : TestCaseRecord :=
  { userStoryId := usid, title := title, sNo := 1,
    description := strL "Test case generation failed for " ++ title,
    stepAction := strL "Manual test case creation required",
    expectedResult := strL "Test case should be created manually" }

/-- Default record appended when no strategy produced anything, lines 398 to
406 of the source. -/
def defaultRecord (usid title : List Char) : TestCaseRecord :=
  { userStoryId := usid, title := title, sNo := 1,
    description := strL "Default test case for " ++ title,
    stepAction := strL "Test the functionality described in: " ++ title,
    expectedResult := strL "Functionality should work as per acceptance criteria" }

/-- Record built by the except branch, lines 385 to 395 of the source: a
single record holding the whole response truncated to 1000 characters.  The
branch is reachable only when an operation inside the try block raises; every
operation there is total on text, so the embedded parser never takes it. -/
def exceptionFallbackRecord (t usid title : List Char) : TestCaseRecord :=
  { userStoryId := usid, title := title, sNo := 1,
    description := strL "Comprehensive test for " ++ title,
    stepAction := if 1000 < t.length then t.take 1000 ++ strL "..." else t,
    expectedResult :=
      strL "All test steps should execute successfully as per acceptance criteria" }

/-- Records produced by strategy 1, lines 334 to 353 of the source: one
record per match of the strict pattern, sequence number taken from the first
captured group of the match. -/
def strategy1Records (t usid title : List Char) : List TestCaseRecord :=
  (reFindAll strictPattern t).map (fun gs =>
    { userStoryId := usid, title := title,
      sNo := natOfDigits (gs.getD 0 []),
      description := pyStrip (gs.getD 1 []),
      stepAction := deNumber (pyStrip (gs.getD 2 [])),
      expectedResult := deNumber (pyStrip (gs.getD 3 [])) })

/-- Records produced by strategy 2, lines 356 to 383 of the source: split at
each sequence marker, skip the first block and blank blocks, extract each
field with a tolerant sub-pattern substituting a hardcoded default when the
sub-pattern is absent; the sequence number is the positional index of the
block. -/
def strategy2Records (t usid title : List Char) : List TestCaseRecord :=
  ((reSplit blockSplitPattern t).enum).filterMap (fun p =>
    if p.1 = 0 || pyStrip p.2 = [] then none
    else some
      { userStoryId := usid, title := title, sNo := p.1,
        description := ((reSearchG1 descSubPattern p.2).map pyStrip).getD
          (strL "Test case " ++ Nat.toDigits 10 p.1 ++ strL " for " ++ title),
        stepAction := ((reSearchG1 stepSubPattern p.2).map pyStrip).getD
          (strL "No step actions specified"),
        expectedResult := ((reSearchG1 resultSubPattern p.2).map pyStrip).getD
          (strL "Expected results not specified") })

/-- Non-sentinel body of the parser, the try block and final guard of lines
333 to 408 of the source: strategy 1, then strategy 2 if strategy 1 found
nothing, then the default record if both found nothing. -/
def parseStructured (t usid title : List Char) : List TestCaseRecord :=
  let l1 := strategy1Records t usid title
  let l2 := if l1 = [] then strategy2Records t usid title else l1
  if l2 = [] then [defaultRecord usid title] else l2

/-- Embedding of parse_comprehensive_test_cases, lines 315 to 408 of the
source: an input starting with the sentinel marker yields the single
fail-soft record, otherwise the strategies run in order. -/
def parse_comprehensive_test_cases (t usid title : List Char) :
    List TestCaseRecord :=
  if litAt t 0 (strL "ERROR_") false then [sentinelRecord usid title]
  else parseStructured t usid title

/-- Whitespace-run collapsing, the re.sub of line 185 of the source: each
maximal whitespace run becomes a single space.  The boolean records whether
the previous character was whitespace. -/
def collapseWsAux : List Char → Bool → List Char
  | [], _ => []
  | c :: t, prev =>
    if pyWs c then
      if prev then collapseWsAux t true else ' ' :: collapseWsAux t true
    else c :: collapseWsAux t false

/-- Collapse every whitespace run to one space. -/
def collapseWs (s : List Char) : List Char := collapseWsAux s false

/-- Trailing-period removal, the re.sub of line 186 of the source: the
pattern of one period followed by trailing whitespace removes, greedily and
anchored at the end, the last period before the maximal whitespace suffix
together with that suffix. -/
def subPeriodEnd (s : List Char) : List Char :=
  match (s.reverse.dropWhile pyWs) with
  | c :: rest => if c = '.' then rest.reverse else s
  | [] => s

/-- Embedding of clean_step_text_for_gherkin, lines 178 to 188 of the
source: strip, collapse whitespace, remove one trailing period, remove
commas. -/
def clean_step_text_for_gherkin (s : List Char) : List Char :=
  (subPeriodEnd (collapseWs (pyStrip s))).filter (fun c => c ≠ ',')

/-- Sentinel-prefix test used by the aggregator, the startswith checks of
lines 533 and 544 of the source. -/
def hasErrMark (s : List Char) : Bool := litAt s 0 (strL "ERROR_") false

/-- Aggregated scenario value: the dictionary entry built at lines 525 to
530 of the source. -/
structure ScenarioData where
  feature : List Char
  steps : List (List Char)
  finalResult : List Char
deriving DecidableEq, Repr

/-- Fresh scenario entry, lines 526 to 530 of the source. -/
def emptyEntry : ScenarioData :=
  { feature := strL "Application Functionality", steps := [], finalResult := [] }

/-- Lookup in an insertion-ordered association list, the embedding of a
Python dictionary read. -/
def dictFind? (m : List (List Char × ScenarioData)) (k : List Char) :
    Option ScenarioData :=
  match m with
  | [] => none
  | (k2, v) :: rest => if k2 = k then some v else dictFind? rest k

/-- In-place update of one key of an insertion-ordered association list, the
embedding of a Python dictionary write to an existing key. -/
def dictModify (m : List (List Char × ScenarioData)) (k : List Char)
    (f : ScenarioData → ScenarioData) : List (List Char × ScenarioData) :=
  match m with
  | [] => []
  | (k2, v) :: rest =>
    if k2 = k then (k2, f v) :: rest else (k2, v) :: dictModify rest k f

/-- Cleaned step lines of a step-action field, lines 535 to 539 of the
source: split on newlines, strip, drop blank lines, clean each line, drop
lines that clean to nothing. -/
def cleanedStepLines (c : List Char) : List (List Char) :=
  ((((splitNl c).map pyStrip).filter (fun l => l ≠ [])).map
    clean_step_text_for_gherkin).filter (fun l => l ≠ [])

/-- Steps a record contributes to its entry: nothing when the stripped field
is empty or carries the sentinel marker, lines 533 to 541 of the source. -/
def recordStepContribution (stepField : List Char) : List (List Char) :=
  let c := pyStrip stepField
  if c ≠ [] ∧ ¬ hasErrMark c then cleanedStepLines c else []

/-- Final-result value a record contributes, lines 544 to 550 of the source:
the cleaned last non-blank line, unless the stripped field is empty, carries
the sentinel marker, or has no non-blank line. -/
def recordResultContribution (resField : List Char) : Option (List Char) :=
  let c := pyStrip resField
  if c ≠ [] ∧ ¬ hasErrMark c then
    (((splitNl c).map pyStrip).filter (fun l => l ≠ [])).getLast?.map
      clean_step_text_for_gherkin
  else none

/-- One aggregation step of the scenario dictionary, the loop body of lines
511 to 550 of the source. -/
def scenariosStep (m : List (List Char × ScenarioData)) (r : TestCaseRecord) :
    List (List Char × ScenarioData) :=
  let key := pyStrip r.description
  if key = [] then m
  else
    let m1 := if (dictFind? m key).isSome then m else m ++ [(key, emptyEntry)]
    let m2 :=
      if pyStrip r.stepAction ≠ [] ∧ ¬ hasErrMark (pyStrip r.stepAction) then
        dictModify m1 key (fun d =>
          { d with steps := d.steps ++ cleanedStepLines (pyStrip r.stepAction) })
      else m1
    match recordResultContribution r.expectedResult with
    | some fin => dictModify m2 key (fun d => { d with finalResult := fin })
    | none => m2

/-- Scenario dictionary aggregated over a row sequence, the whole loop of
lines 511 to 550 of the source. -/
def scenariosDataOfRows (rows : List TestCaseRecord) :
    List (List Char × ScenarioData) :=
  rows.foldl scenariosStep []

/-- Local deterministic Gherkin block for one scenario entry, the per-entry
text appended by lines 618 to 655 of the source, without the once-per-feature
header. -/
def renderScenarioBlock (title : List Char) (d : ScenarioData) : List Char :=
  strL "  Scenario: " ++ title ++ ['\n'] ++
  strL "    Given User provided with CVT URL" ++ ['\n'] ++
  (match d.steps with
   | [] => strL "    When the system processes the request" ++ ['\n']
   | s :: rest =>
     strL "    When " ++ s ++ ['\n'] ++
     rest.flatMap (fun r => strL "    And " ++ r ++ ['\n'])) ++
  (if d.finalResult = [] then
    strL "    Then the expected outcome should be achieved" ++ ['\n']
   else strL "    Then " ++ d.finalResult ++ ['\n']) ++
  ['\n']

/-- Base delay between attempts, the API_DELAY constant of line 89 of the
source (0.5 seconds, embedded as an exact rational). -/
def API_DELAY : ℚ := 1 / 2

/-- Loop of the retry wrapper, lines 147 to 155 of the source.  The service
is a map from attempt index to outcome; the first numeric argument counts
the remaining loop iterations (initially the whole attempt budget), the
second is the current attempt index.  The result pairs the returned or
re-raised outcome (none when the attempt budget is zero and the loop body
never runs, matching the implicit None return of the Python loop) with the
sleep durations performed between attempts. -/
def retryGo {A : Type} (calls : Nat → Except (List Char) A)
    (maxRetries : Nat) : Nat → Nat → List ℚ →
    Option (Except (List Char) A) × List ℚ
  | 0, _, sleeps => (none, sleeps)
  | rem + 1, attempt, sleeps =>
    match calls attempt with
    | Except.ok a => (some (Except.ok a), sleeps)
    | Except.error e =>
      if attempt = maxRetries - 1 then (some (Except.error e), sleeps)
      else retryGo calls maxRetries rem (attempt + 1)
        (sleeps ++ [API_DELAY * 2 ^ attempt])

/-- Embedding of retry_api_call, lines 143 to 155 of the source. -/
def retry_api_call {A : Type} (calls : Nat → Except (List Char) A)
    (maxRetries : Nat) : Option (Except (List Char) A) × List ℚ :=
  retryGo calls maxRetries maxRetries 0 []

/-- Embedding of generate_test_case_with_gemini_backend, lines 192 to 313 of
the source, with the service modelled as the outcome of the single
generate_content call it performs.  Returns the content pair of the source:
the sentinel for an unavailable service or missing key, the call-failure
sentinel when the call raises, the format sentinel when neither the
Test Cases: header nor an S.No: marker occurs, and otherwise the extracted
content with any example tail removed. -/
def generate_test_case_with_gemini_backend (apiAvailable apiKeySet : Bool)
    (svc : Except (List Char) (List Char)) : List Char × List Char :=
  if apiAvailable = false then
    (strL "ERROR_API_NOT_AVAILABLE_TEST_CASES",
     strL "ERROR_API_NOT_AVAILABLE_TEST_CASES")
  else if apiKeySet = false then
    (strL "ERROR_API_NOT_AVAILABLE_TEST_CASES",
     strL "ERROR_API_NOT_AVAILABLE_TEST_CASES")
  else
    match svc with
    | Except.error _ =>
      (strL "ERROR_API_CALL_FAILED_TEST_CASES",
       strL "ERROR_API_CALL_FAILED_TEST_CASES")
    | Except.ok resp =>
      let text := pyStrip resp
      let content :=
        match firstIdx text (strL "Test Cases:") with
        | none => if containsSeq text (strL "S.No:") then some text else none
        | some i => some (pyStrip (text.drop (i + 11)))
      match content with
      | none =>
        (strL "ERROR_GENERATION_FORMAT_ISSUE_TEST_CASES",
         strL "ERROR_GENERATION_FORMAT_ISSUE_TEST_CASES")
      | some c =>
        let c2 :=
          match firstIdx c (strL "Example (for clarity,") with
          | some j => pyStrip (c.take j)
          | none => c
        (c2, c2)

/-- Entry value after one record is folded in: steps appended, final result
overwritten when the record contributes one. -/
def recordApplied (e : ScenarioData) (r : TestCaseRecord) : ScenarioData :=
  { feature := e.feature,
    steps := e.steps ++ recordStepContribution r.stepAction,
    finalResult := (recordResultContribution r.expectedResult).getD e.finalResult }

/-- Concatenation of lines, each terminated by a newline. -/
def lineJoin (ls : List (List Char)) : List Char :=
  ls.flatMap (fun l => l ++ ['\n'])

set_option maxRecDepth 20000

/-- Claim C1, counterexample: for the sentinel input ERROR_X the single
returned record carries the fail-soft strings of the source, which are not
the literal triple stated in the spec (description generation failed for
title, steps manual creation required, results must be created manually). -/
theorem claim1_counterexample :
    parse_comprehensive_test_cases (strL "ERROR_X") (strL "U") (strL "T") =
      [sentinelRecord (strL "U") (strL "T")] ∧
    (sentinelRecord (strL "U") (strL "T")).description ≠
      strL "generation failed for T" ∧
    (sentinelRecord (strL "U") (strL "T")).stepAction ≠
      strL "manual creation required" ∧
    (sentinelRecord (strL "U") (strL "T")).expectedResult ≠
      strL "must be created manually" := by
  decide

/-- Claim C1, amended: for every input starting with the sentinel marker,
parse returns exactly one record, and its fields are the fixed fail-soft
strings of the source: description Test case generation failed for the
title, step action Manual test case creation required, expected result
Test case should be created manually. -/
theorem claim1_sentinel_record_exact (t usid title : List Char)
    (h : litAt t 0 (strL "ERROR_") false = true) :
    parse_comprehensive_test_cases t usid title = [sentinelRecord usid title] := by
  simp [parse_comprehensive_test_cases, h]

/-- Witness for claim C1 at the concrete sentinel input ERROR_X. -/
theorem claim1_witness :
    litAt (strL "ERROR_X") 0 (strL "ERROR_") false = true ∧
    parse_comprehensive_test_cases (strL "ERROR_X") (strL "U") (strL "T") =
      [sentinelRecord (strL "U") (strL "T")] :=
  ⟨by decide, claim1_sentinel_record_exact (strL "ERROR_X") (strL "U") (strL "T")
    (by decide)⟩

/-- Claim C2: the embedded parser is a total function (every operation of
the try block of the source is total on text, so no exception escapes), and
for every input, sentinel or not, it returns at least one record. -/
theorem claim2_parse_always_nonempty (t usid title : List Char) :
    1 ≤ (parse_comprehensive_test_cases t usid title).length := by
  rw [parse_comprehensive_test_cases]
  split
  · simp
  · simp only [parseStructured]
    by_cases h : (if strategy1Records t usid title = [] then
        strategy2Records t usid title else strategy1Records t usid title) = []
    · rw [if_pos h]
      simp
    · rw [if_neg h]
      exact List.length_pos.mpr h

/-- Claim C5, counterexample: the normalizer removes only one trailing
period per application, so it is not idempotent: normalizing a.. yields a.
and normalizing again yields a. -/
theorem claim5_counterexample :
    clean_step_text_for_gherkin (clean_step_text_for_gherkin (strL "a..")) ≠
      clean_step_text_for_gherkin (strL "a..") := by
  decide

/-- Length of a whitespace-collapsed text never exceeds the original. -/
theorem collapseWsAux_length_le :
    ∀ (s : List Char) (b : Bool), (collapseWsAux s b).length ≤ s.length
  | [], _ => Nat.le_refl _
  | c :: t, b => by
    rw [collapseWsAux]
    split
    · split
      · exact Nat.le_succ_of_le (collapseWsAux_length_le t true)
      · simpa using collapseWsAux_length_le t true
    · simpa using collapseWsAux_length_le t false

/-- Length of a stripped text never exceeds the original. -/
theorem pyStrip_length_le (s : List Char) : (pyStrip s).length ≤ s.length := by
  rw [pyStrip]
  calc (((s.dropWhile pyWs).reverse.dropWhile pyWs).reverse).length
      = ((s.dropWhile pyWs).reverse.dropWhile pyWs).length := List.length_reverse _
    _ ≤ (s.dropWhile pyWs).reverse.length :=
        ((s.dropWhile pyWs).reverse.dropWhile_sublist pyWs).length_le
    _ = (s.dropWhile pyWs).length := List.length_reverse _
    _ ≤ s.length := (s.dropWhile_sublist pyWs).length_le

/-- Length after trailing-period removal never exceeds the original. -/
theorem subPeriodEnd_length_le (s : List Char) :
    (subPeriodEnd s).length ≤ s.length := by
  rw [subPeriodEnd]
  split
  · rename_i c rest heq
    split
    · have h1 : (c :: rest).length ≤ s.reverse.length :=
        heq ▸ (s.reverse.dropWhile_sublist pyWs).length_le
      simp only [List.length_cons, List.length_reverse] at h1 ⊢
      omega
    · exact Nat.le_refl _
  · exact Nat.le_refl _

/-- Claim C5, amended: the normalizer never lengthens its input — it only
strips, collapses whitespace runs, removes one trailing period and removes
commas — but it is not idempotent, because only one trailing period is
removed per application. -/
theorem claim5_normalize_length_le (s : List Char) :
    (clean_step_text_for_gherkin s).length ≤ s.length := by
  rw [clean_step_text_for_gherkin]
  calc ((subPeriodEnd (collapseWs (pyStrip s))).filter (fun c => c ≠ ',')).length
      ≤ (subPeriodEnd (collapseWs (pyStrip s))).length := List.length_filter_le _ _
    _ ≤ (collapseWs (pyStrip s)).length := subPeriodEnd_length_le _
    _ ≤ (pyStrip s).length := collapseWsAux_length_le _ _
    _ ≤ s.length := pyStrip_length_le s

/-- Claim C6, counterexample: a well-formed labeled block whose numeric
marker is 0 parses to a record whose sequence number is 0, which is not a
positive integer. -/
theorem claim6_counterexample :
    (parse_comprehensive_test_cases
        (strL "S.No: 0\nTestCasesDescription: d\nStepAction: s\nExpectedResult: r")
        (strL "U") (strL "T")).map TestCaseRecord.sNo = [0] ∧
    parse_comprehensive_test_cases
        (strL "S.No: 0\nTestCasesDescription: d\nStepAction: s\nExpectedResult: r")
        (strL "U") (strL "T") =
      [{ userStoryId := strL "U", title := strL "T", sNo := 0,
         description := strL "d", stepAction := strL "s",
         expectedResult := strL "r" }] := by
  decide

/-- Claim C6, amended: for every non-sentinel input on which the strict
pattern of strategy 1 finds at least one block, parse returns exactly one
record per match, in match order, and each sequence number is the numeric
value of the marker captured by that match (which may be zero and may
repeat; strategy 2, when it runs instead, numbers records positionally). -/
theorem claim6_strategy1_markers (t usid title : List Char)
    (hs : litAt t 0 (strL "ERROR_") false = false)
    (h1 : strategy1Records t usid title ≠ []) :
    parse_comprehensive_test_cases t usid title = strategy1Records t usid title ∧
    (parse_comprehensive_test_cases t usid title).length =
      (reFindAll strictPattern t).length ∧
    (parse_comprehensive_test_cases t usid title).map TestCaseRecord.sNo =
      (reFindAll strictPattern t).map (fun gs => natOfDigits (gs.getD 0 [])) := by
  have hp : parse_comprehensive_test_cases t usid title =
      strategy1Records t usid title := by
    rw [parse_comprehensive_test_cases, if_neg (by simp [hs]), parseStructured]
    simp [h1]
  refine ⟨hp, ?_, ?_⟩ <;> rw [hp] <;> simp [strategy1Records]

/-- Witness for claim C6 at a concrete two-block input with markers 3
and 7. -/
theorem claim6_witness :
    (parse_comprehensive_test_cases
        (strL "S.No: 3\nTestCasesDescription: a\nStepAction: b\nExpectedResult: c\nS.No: 7\nTestCasesDescription: d\nStepAction: e\nExpectedResult: f")
        (strL "U") (strL "T") =
      strategy1Records
        (strL "S.No: 3\nTestCasesDescription: a\nStepAction: b\nExpectedResult: c\nS.No: 7\nTestCasesDescription: d\nStepAction: e\nExpectedResult: f")
        (strL "U") (strL "T") ∧
    (parse_comprehensive_test_cases
        (strL "S.No: 3\nTestCasesDescription: a\nStepAction: b\nExpectedResult: c\nS.No: 7\nTestCasesDescription: d\nStepAction: e\nExpectedResult: f")
        (strL "U") (strL "T")).length =
      (reFindAll strictPattern
        (strL "S.No: 3\nTestCasesDescription: a\nStepAction: b\nExpectedResult: c\nS.No: 7\nTestCasesDescription: d\nStepAction: e\nExpectedResult: f")).length ∧
    (parse_comprehensive_test_cases
        (strL "S.No: 3\nTestCasesDescription: a\nStepAction: b\nExpectedResult: c\nS.No: 7\nTestCasesDescription: d\nStepAction: e\nExpectedResult: f")
        (strL "U") (strL "T")).map TestCaseRecord.sNo =
      (reFindAll strictPattern
        (strL "S.No: 3\nTestCasesDescription: a\nStepAction: b\nExpectedResult: c\nS.No: 7\nTestCasesDescription: d\nStepAction: e\nExpectedResult: f")).map
        (fun gs => natOfDigits (gs.getD 0 []))) ∧
    (parse_comprehensive_test_cases
        (strL "S.No: 3\nTestCasesDescription: a\nStepAction: b\nExpectedResult: c\nS.No: 7\nTestCasesDescription: d\nStepAction: e\nExpectedResult: f")
        (strL "U") (strL "T")).map TestCaseRecord.sNo = [3, 7] :=
  ⟨claim6_strategy1_markers _ _ _ (by decide) (by decide), by decide⟩

/-- Claim C7, counterexample: for the non-sentinel unstructured input
hello world, parse returns the default record of the final guard, not the
comprehensive-test record with the truncated raw text: that record is built
only in the except branch, which no input reaches. -/
theorem claim7_counterexample :
    parse_comprehensive_test_cases (strL "hello world") (strL "U") (strL "T") =
      [defaultRecord (strL "U") (strL "T")] ∧
    parse_comprehensive_test_cases (strL "hello world") (strL "U") (strL "T") ≠
      [exceptionFallbackRecord (strL "hello world") (strL "U") (strL "T")] ∧
    (defaultRecord (strL "U") (strL "T")).description ≠
      strL "Comprehensive test for T" ∧
    (defaultRecord (strL "U") (strL "T")).stepAction ≠ strL "hello world" := by
  decide

/-- Claim C7, amended: for every non-sentinel input in which neither
strategy finds any labeled structure, parse returns exactly the default
record: description Default test case for the title, a fixed step sentence
referencing the title, and the generic pass-condition result string.  The
truncated comprehensive-test record exists only in the unreachable except
branch. -/
theorem claim7_no_structure_default (t usid title : List Char)
    (hs : litAt t 0 (strL "ERROR_") false = false)
    (h1 : strategy1Records t usid title = [])
    (h2 : strategy2Records t usid title = []) :
    parse_comprehensive_test_cases t usid title = [defaultRecord usid title] := by
  rw [parse_comprehensive_test_cases, if_neg (by simp [hs]), parseStructured]
  simp [h1, h2]

/-- Witness for claim C7 at the concrete unstructured input hello world. -/
theorem claim7_witness :
    parse_comprehensive_test_cases (strL "hello world") (strL "U") (strL "T") =
      [defaultRecord (strL "U") (strL "T")] :=
  claim7_no_structure_default (strL "hello world") (strL "U") (strL "T")
    (by decide) (by decide) (by decide)

/-- Lookup distributes over list append of dictionaries. -/
theorem dictFind?_append (m m2 : List (List Char × ScenarioData)) (k : List Char) :
    dictFind? (m ++ m2) k =
      match dictFind? m k with
      | some v => some v
      | none => dictFind? m2 k := by
  induction m with
  | nil => simp [dictFind?]
  | cons p rest ih =>
    obtain ⟨k2, v⟩ := p
    simp only [List.cons_append, dictFind?]
    split
    · rfl
    · exact ih

/-- Lookup of the modified key returns the modified value. -/
theorem dictFind?_modify_eq (m : List (List Char × ScenarioData)) (k : List Char)
    (f : ScenarioData → ScenarioData) :
    dictFind? (dictModify m k f) k = (dictFind? m k).map f := by
  induction m with
  | nil => simp [dictFind?, dictModify]
  | cons p rest ih =>
    obtain ⟨k2, v⟩ := p
    rw [dictModify]
    split
    · rename_i h
      simp [dictFind?, h]
    · rename_i h
      simp [dictFind?, h, ih]

/-- Lookup of any other key is unchanged by a modification. -/
theorem dictFind?_modify_ne (m : List (List Char × ScenarioData)) (k : List Char)
    (f : ScenarioData → ScenarioData) (d : List Char) (h : k ≠ d) :
    dictFind? (dictModify m k f) d = dictFind? m d := by
  induction m with
  | nil => simp [dictModify]
  | cons p rest ih =>
    obtain ⟨k2, v⟩ := p
    rw [dictModify]
    split
    · rename_i h2
      subst h2
      simp [dictFind?, h]
    · simp only [dictFind?]
      split
      · rfl
      · exact ih

/-- Lookup of the key after the create-if-missing step of the aggregator. -/
theorem dictFind?_entryInit_self (m : List (List Char × ScenarioData))
    (key : List Char) :
    dictFind? (if (dictFind? m key).isSome then m else m ++ [(key, emptyEntry)])
        key = some ((dictFind? m key).getD emptyEntry) := by
  cases h : dictFind? m key with
  | some e => simp [h]
  | none => simp [h, dictFind?_append, dictFind?]

/-- Lookup of any other key after the create-if-missing step. -/
theorem dictFind?_entryInit_ne (m : List (List Char × ScenarioData))
    (key d : List Char) (h : key ≠ d) :
    dictFind? (if (dictFind? m key).isSome then m else m ++ [(key, emptyEntry)])
        d = dictFind? m d := by
  cases h2 : dictFind? m key with
  | some e => simp [h2]
  | none =>
    simp only [h2, Option.isSome_none, Bool.false_eq_true, if_false,
      dictFind?_append, dictFind?, if_neg h]
    split <;> rename_i heq <;> exact heq.symm

/-- One aggregation step does not touch entries of other descriptions. -/
theorem scenariosStep_other (m : List (List Char × ScenarioData))
    (r : TestCaseRecord) (d : List Char) (h : pyStrip r.description ≠ d) :
    dictFind? (scenariosStep m r) d = dictFind? m d := by
  by_cases hk : pyStrip r.description = []
  · rw [scenariosStep, if_pos hk]
  · cases hrc : recordResultContribution r.expectedResult with
    | some fin =>
      by_cases hstep : pyStrip r.stepAction ≠ [] ∧ ¬ hasErrMark (pyStrip r.stepAction) = true
      · simp only [scenariosStep, if_neg hk, hrc, if_pos hstep]
        rw [dictFind?_modify_ne _ _ _ _ h, dictFind?_modify_ne _ _ _ _ h,
          dictFind?_entryInit_ne m _ d h]
      · simp only [scenariosStep, if_neg hk, hrc, if_neg hstep]
        rw [dictFind?_modify_ne _ _ _ _ h, dictFind?_entryInit_ne m _ d h]
    | none =>
      by_cases hstep : pyStrip r.stepAction ≠ [] ∧ ¬ hasErrMark (pyStrip r.stepAction) = true
      · simp only [scenariosStep, if_neg hk, hrc, if_pos hstep]
        rw [dictFind?_modify_ne _ _ _ _ h, dictFind?_entryInit_ne m _ d h]
      · simp only [scenariosStep, if_neg hk, hrc, if_neg hstep]
        rw [dictFind?_entryInit_ne m _ d h]

/-- One aggregation step updates the entry of the record description exactly
by appending its step contribution and folding in its result contribution. -/
theorem scenariosStep_self (m : List (List Char × ScenarioData))
    (r : TestCaseRecord) (hk : pyStrip r.description ≠ []) :
    dictFind? (scenariosStep m r) (pyStrip r.description) =
      some (recordApplied ((dictFind? m (pyStrip r.description)).getD emptyEntry) r) := by
  have h1 := dictFind?_entryInit_self m (pyStrip r.description)
  cases hrc : recordResultContribution r.expectedResult with
  | some fin =>
    by_cases hstep : pyStrip r.stepAction ≠ [] ∧ ¬ hasErrMark (pyStrip r.stepAction) = true
    · simp only [scenariosStep, if_neg hk, hrc, if_pos hstep]
      rw [dictFind?_modify_eq, dictFind?_modify_eq, h1]
      simp [recordApplied, recordStepContribution, hstep.1, hstep.2, hrc]
    · simp only [scenariosStep, if_neg hk, hrc, if_neg hstep]
      rw [dictFind?_modify_eq, h1]
      simp only [recordApplied, recordStepContribution]
      rw [if_neg hstep]
      simp [hrc]
  | none =>
    by_cases hstep : pyStrip r.stepAction ≠ [] ∧ ¬ hasErrMark (pyStrip r.stepAction) = true
    · simp only [scenariosStep, if_neg hk, hrc, if_pos hstep]
      rw [dictFind?_modify_eq, h1]
      simp [recordApplied, recordStepContribution, hstep.1, hstep.2, hrc]
    · simp only [scenariosStep, if_neg hk, hrc, if_neg hstep]
      rw [h1]
      simp only [recordApplied, recordStepContribution]
      rw [if_neg hstep]
      simp [hrc]

/-- Folding the whole row list affects the entry of a description exactly
through the rows bearing that description, in order. -/
theorem scenariosFold (rows : List TestCaseRecord)
    (m : List (List Char × ScenarioData)) (d : List Char) (hd : d ≠ []) :
    dictFind? (List.foldl scenariosStep m rows) d =
      (rows.filter (fun r => pyStrip r.description = d)).foldl
        (fun o r => some (recordApplied (o.getD emptyEntry) r)) (dictFind? m d) := by
  induction rows generalizing m with
  | nil => simp
  | cons r rest ih =>
    rw [List.foldl_cons]
    by_cases h : pyStrip r.description = d
    · rw [List.filter_cons_of_pos (by simp [h]), List.foldl_cons, ih]
      have hk : pyStrip r.description ≠ [] := by rw [h]; exact hd
      rw [← h, scenariosStep_self m r hk]
    · rw [List.filter_cons_of_neg (by simp [h]), ih, scenariosStep_other m r d h]

/-- Last element of a cons, defaulted: the head becomes the new default. -/
theorem getLast?_cons_getD {α : Type} (L : List α) (v d : α) :
    ((v :: L).getLast?).getD d = (L.getLast?).getD v := by
  induction L generalizing v d with
  | nil => rfl
  | cons a l ih =>
    rw [List.getLast?_cons_cons]
    cases l with
    | nil => rfl
    | cons b l2 => exact (ih a d).trans (ih a v).symm

/-- Closed form of folding records into one entry: steps concatenate in
order, the final result is the last contributed one. -/
theorem foldl_recordApplied (rel : List TestCaseRecord) (e : ScenarioData) :
    rel.foldl (fun o r => some (recordApplied (o.getD emptyEntry) r)) (some e) =
      some { feature := e.feature,
             steps := e.steps ++
               rel.flatMap (fun r => recordStepContribution r.stepAction),
             finalResult := ((rel.filterMap
               (fun r => recordResultContribution r.expectedResult)).getLast?).getD
               e.finalResult } := by
  induction rel generalizing e with
  | nil => simp
  | cons r rest ih =>
    rw [List.foldl_cons]
    show rest.foldl _ (some (recordApplied e r)) = _
    rw [ih (recordApplied e r)]
    congr 1
    rw [ScenarioData.mk.injEq]
    refine ⟨rfl, ?_, ?_⟩
    · simp [recordApplied, List.append_assoc]
    · rw [List.filterMap_cons]
      cases hrc : recordResultContribution r.expectedResult with
      | none => simp [recordApplied, hrc]
      | some v => simp only [recordApplied, hrc, Option.getD_some, getLast?_cons_getD]

/-- Claim C3: aggregation is additive for steps and last-write-wins for the
final expected result.  For every row sequence and every non-blank trimmed
description, the single entry under that description holds the concatenation,
in processing order, of the step contributions of all rows bearing that
description — rows from different user stories included — and its final
result is the last contributed result value (the cleaned last non-blank line
of the latest row with a usable result field). -/
theorem claim3_aggregation_additive_lastwrite (rows : List TestCaseRecord)
    (d : List Char) (hd : d ≠ [])
    (hne : rows.filter (fun r => pyStrip r.description = d) ≠ []) :
    dictFind? (scenariosDataOfRows rows) d =
      some { feature := strL "Application Functionality",
             steps := (rows.filter (fun r => pyStrip r.description = d)).flatMap
               (fun r => recordStepContribution r.stepAction),
             finalResult := (((rows.filter (fun r => pyStrip r.description = d)).filterMap
               (fun r => recordResultContribution r.expectedResult)).getLast?).getD [] } := by
  rw [scenariosDataOfRows, scenariosFold rows [] d hd]
  cases hrel : rows.filter (fun r => pyStrip r.description = d) with
  | nil => exact absurd hrel hne
  | cons r rest =>
    rw [List.foldl_cons]
    show rest.foldl _ (some (recordApplied (Option.getD none emptyEntry) r)) = _
    rw [foldl_recordApplied rest (recordApplied (Option.getD none emptyEntry) r)]
    simp only [Option.getD_none, recordApplied, emptyEntry, List.nil_append,
      List.flatMap_cons, List.filterMap_cons]
    cases hrc : recordResultContribution r.expectedResult with
    | none => simp [List.append_assoc]
    | some v => simp [List.append_assoc, getLast?_cons_getD]

/-- Witness for claim C3: two records from different user stories with the
same description merge into one entry with concatenated steps, and the final
result comes from the last record that contributed one (the second record
has an empty result field, so the first record result stands). -/
theorem claim3_witness :
    dictFind? (scenariosDataOfRows
        [⟨strL "U1", strL "T1", 1, strL "Login", strL "step one\nstep two",
          strL "ok one\nok two"⟩,
         ⟨strL "U2", strL "T2", 1, strL "Login", strL "step three", strL ""⟩])
      (strL "Login") =
      some ⟨strL "Application Functionality",
        ([(⟨strL "U1", strL "T1", 1, strL "Login", strL "step one\nstep two",
            strL "ok one\nok two"⟩ : TestCaseRecord),
          ⟨strL "U2", strL "T2", 1, strL "Login", strL "step three", strL ""⟩].filter
            (fun r => pyStrip r.description = strL "Login")).flatMap
          (fun r => recordStepContribution r.stepAction),
        ((([(⟨strL "U1", strL "T1", 1, strL "Login", strL "step one\nstep two",
            strL "ok one\nok two"⟩ : TestCaseRecord),
          ⟨strL "U2", strL "T2", 1, strL "Login", strL "step three", strL ""⟩].filter
            (fun r => pyStrip r.description = strL "Login")).filterMap
          (fun r => recordResultContribution r.expectedResult)).getLast?).getD []⟩ ∧
    dictFind? (scenariosDataOfRows
        [⟨strL "U1", strL "T1", 1, strL "Login", strL "step one\nstep two",
          strL "ok one\nok two"⟩,
         ⟨strL "U2", strL "T2", 1, strL "Login", strL "step three", strL ""⟩])
      (strL "Login") =
      some ⟨strL "Application Functionality",
        [strL "step one", strL "step two", strL "step three"], strL "ok two"⟩ :=
  ⟨claim3_aggregation_additive_lastwrite _ _ (by decide) (by decide), by decide⟩

/-- Claim C8: a record with a blank description is dropped and creates no
entry; a record whose step field strips to empty or to a sentinel-marked
text contributes no steps; a record whose result field strips to empty or to
a sentinel-marked text leaves the final result of its entry unchanged
(possibly still empty). -/
theorem claim8_record_filtering (m : List (List Char × ScenarioData))
    (r : TestCaseRecord) :
    (pyStrip r.description = [] → scenariosStep m r = m) ∧
    (pyStrip r.description ≠ [] →
      ((pyStrip r.stepAction = [] ∨ hasErrMark (pyStrip r.stepAction) = true →
         (dictFind? (scenariosStep m r) (pyStrip r.description)).map ScenarioData.steps =
           some (((dictFind? m (pyStrip r.description)).getD emptyEntry).steps)) ∧
       (pyStrip r.expectedResult = [] ∨ hasErrMark (pyStrip r.expectedResult) = true →
         (dictFind? (scenariosStep m r) (pyStrip r.description)).map
             ScenarioData.finalResult =
           some (((dictFind? m (pyStrip r.description)).getD
             emptyEntry).finalResult)))) := by
  refine ⟨fun h => by rw [scenariosStep, if_pos h],
    fun hk => ⟨fun hstep0 => ?_, fun hres0 => ?_⟩⟩
  · have hc : recordStepContribution r.stepAction = [] := by
      rcases hstep0 with h | h <;> simp [recordStepContribution, h]
    rw [scenariosStep_self m r hk]
    simp [recordApplied, hc]
  · have hc : recordResultContribution r.expectedResult = none := by
      rcases hres0 with h | h <;> simp [recordResultContribution, h]
    rw [scenariosStep_self m r hk]
    simp [recordApplied, hc]

/-- Witness for claim C8: a whitespace-only description is dropped, a
sentinel step field contributes no steps, a sentinel result field leaves the
final result empty. -/
theorem claim8_witness :
    scenariosStep [] ⟨strL "U", strL "T", 1, strL "   ", strL "step", strL "res"⟩ = [] ∧
    (dictFind? (scenariosStep []
        ⟨strL "U", strL "T", 1, strL "Login",
         strL "ERROR_API_CALL_FAILED_TEST_CASES", strL "ok line"⟩)
      (strL "Login")).map ScenarioData.steps = some [] ∧
    (dictFind? (scenariosStep []
        ⟨strL "U", strL "T", 1, strL "Login", strL "s",
         strL "ERROR_GENERATION_FORMAT_ISSUE_TEST_CASES"⟩)
      (strL "Login")).map ScenarioData.finalResult = some [] :=
  ⟨(claim8_record_filtering [] _).1 (by decide),
   ((claim8_record_filtering [] _).2 (by decide)).1 (Or.inr (by decide)),
   ((claim8_record_filtering [] _).2 (by decide)).2 (Or.inr (by decide))⟩

/-- Splitting at the first newline after a newline-free prefix. -/
theorem splitNl_append_cons (a b : List Char) (h : '\n' ∉ a) :
    splitNl (a ++ '\n' :: b) = a :: splitNl b := by
  induction a with
  | nil => simp [splitNl]
  | cons c t ih =>
    have hc : c ≠ '\n' := fun hcc => h (hcc ▸ List.mem_cons_self c t)
    have ht : '\n' ∉ t := fun hm => h (List.mem_cons_of_mem c hm)
    simp only [List.cons_append, splitNl, if_neg hc, List.append_eq]
    rw [ih ht]

/-- Splitting a newline-joined line list recovers the lines, plus the empty
piece after the final newline. -/
theorem splitNl_lineJoin (ls : List (List Char)) (h : ∀ l ∈ ls, '\n' ∉ l) :
    splitNl (lineJoin ls) = ls ++ [[]] := by
  induction ls with
  | nil => simp [lineJoin, splitNl]
  | cons l t ih =>
    have h1 : lineJoin (l :: t) = l ++ '\n' :: lineJoin t := by
      simp [lineJoin, List.flatMap_cons, List.append_assoc]
    rw [h1, splitNl_append_cons l _ (h l (List.mem_cons_self l t)),
      ih (fun x hx => h x (List.mem_cons_of_mem l hx))]
    rfl

/-- The scenario block of the local renderer is the newline-joining of its
header, step and result lines, with the trailing blank line. -/
theorem renderScenarioBlock_lines (title feat : List Char)
    (steps : List (List Char)) (fin : List Char) :
    renderScenarioBlock title ⟨feat, steps, fin⟩ =
      lineJoin ([strL "  Scenario: " ++ title,
        strL "    Given User provided with CVT URL"] ++
        (match steps with
         | [] => [strL "    When the system processes the request"]
         | s :: rest => (strL "    When " ++ s) ::
             rest.map (fun r => strL "    And " ++ r)) ++
        [(if fin = [] then strL "    Then the expected outcome should be achieved"
          else strL "    Then " ++ fin), []]) := by
  cases steps with
  | nil =>
    by_cases hf : fin = [] <;>
      simp [renderScenarioBlock, lineJoin, hf, List.append_assoc]
  | cons s rest =>
    by_cases hf : fin = [] <;>
      simp [renderScenarioBlock, lineJoin, hf, List.append_assoc,
        List.flatMap_map, Function.comp]

/-- An append of two newline-free texts is newline-free. -/
theorem noNl_append (a b : List Char) (ha : '\n' ∉ a) (hb : '\n' ∉ b) :
    '\n' ∉ a ++ b := by
  simp only [List.mem_append]
  rintro (h | h)
  · exact ha h
  · exact hb h

/-- Claim C4: for every scenario entry whose title, steps and final result
contain no newline, the local renderer emits exactly: a Scenario line
indented two spaces carrying the title verbatim, the fixed Given line, a
four-space-indented When line for the first step and an And line for each
later step (or the fixed placeholder When step if there are none), and one
Then line with the final result (or the fixed placeholder sentence if it is
empty), followed by a blank line. -/
theorem claim4_local_gherkin_block (title feat : List Char) (steps : List (List Char))
    (fin : List Char) (ht : '\n' ∉ title) (hs : ∀ s ∈ steps, '\n' ∉ s)
    (hf : '\n' ∉ fin) :
    splitNl (renderScenarioBlock title ⟨feat, steps, fin⟩) =
      [strL "  Scenario: " ++ title,
       strL "    Given User provided with CVT URL"] ++
      (match steps with
       | [] => [strL "    When the system processes the request"]
       | s :: rest => (strL "    When " ++ s) ::
           rest.map (fun r => strL "    And " ++ r)) ++
      [(if fin = [] then strL "    Then the expected outcome should be achieved"
        else strL "    Then " ++ fin), [], []] := by
  have hthen : '\n' ∉ (if fin = [] then
      strL "    Then the expected outcome should be achieved"
      else strL "    Then " ++ fin) := by
    by_cases hfe : fin = []
    · rw [if_pos hfe]
      decide
    · rw [if_neg hfe]
      exact noNl_append _ _ (by decide) hf
  cases steps with
  | nil =>
    rw [renderScenarioBlock_lines, splitNl_lineJoin]
    · simp [List.append_assoc]
    · refine List.forall_mem_append.mpr ⟨List.forall_mem_append.mpr ⟨?_, ?_⟩, ?_⟩
      · refine List.forall_mem_cons.mpr ⟨noNl_append _ _ (by decide) ht, ?_⟩
        refine List.forall_mem_cons.mpr ⟨by decide, by simp⟩
      · refine List.forall_mem_cons.mpr ⟨by decide, by simp⟩
      · refine List.forall_mem_cons.mpr ⟨hthen, ?_⟩
        refine List.forall_mem_cons.mpr ⟨by simp, by simp⟩
  | cons s rest =>
    rw [renderScenarioBlock_lines, splitNl_lineJoin]
    · simp [List.append_assoc]
    · refine List.forall_mem_append.mpr ⟨List.forall_mem_append.mpr ⟨?_, ?_⟩, ?_⟩
      · refine List.forall_mem_cons.mpr ⟨noNl_append _ _ (by decide) ht, ?_⟩
        refine List.forall_mem_cons.mpr ⟨by decide, by simp⟩
      · refine List.forall_mem_cons.mpr
          ⟨noNl_append _ _ (by decide) (hs s (List.mem_cons_self s rest)), ?_⟩
        intro l hl
        rcases List.mem_map.mp hl with ⟨r, hr, hrl⟩
        subst hrl
        exact noNl_append _ _ (by decide) (hs r (List.mem_cons_of_mem s hr))
      · refine List.forall_mem_cons.mpr ⟨hthen, ?_⟩
        refine List.forall_mem_cons.mpr ⟨by simp, by simp⟩

/-- Witness for claim C4 at the round-trip example of the spec: three steps
and a final result produce exactly one When, two And and one Then line, each
prefixed by four spaces, under a Scenario line prefixed by two spaces. -/
theorem claim4_witness :
    splitNl (renderScenarioBlock (strL "Valid Login")
        ⟨strL "Application Functionality",
         [strL "enter username", strL "enter password", strL "click login"],
         strL "dashboard is shown"⟩) =
      [strL "  Scenario: Valid Login",
       strL "    Given User provided with CVT URL",
       strL "    When enter username", strL "    And enter password",
       strL "    And click login", strL "    Then dashboard is shown",
       [], []] ∧
    (splitNl (renderScenarioBlock (strL "Valid Login")
        ⟨strL "Application Functionality",
         [strL "enter username", strL "enter password", strL "click login"],
         strL "dashboard is shown"⟩)).countP
      (fun l => litAt l 0 (strL "    When ") false) = 1 ∧
    (splitNl (renderScenarioBlock (strL "Valid Login")
        ⟨strL "Application Functionality",
         [strL "enter username", strL "enter password", strL "click login"],
         strL "dashboard is shown"⟩)).countP
      (fun l => litAt l 0 (strL "    And ") false) = 2 ∧
    (splitNl (renderScenarioBlock (strL "Valid Login")
        ⟨strL "Application Functionality",
         [strL "enter username", strL "enter password", strL "click login"],
         strL "dashboard is shown"⟩)).countP
      (fun l => litAt l 0 (strL "    Then ") false) = 1 ∧
    (splitNl (renderScenarioBlock (strL "Valid Login")
        ⟨strL "Application Functionality",
         [strL "enter username", strL "enter password", strL "click login"],
         strL "dashboard is shown"⟩)).countP
      (fun l => litAt l 0 (strL "  Scenario: ") false) = 1 :=
  ⟨(claim4_local_gherkin_block (strL "Valid Login")
      (strL "Application Functionality")
      [strL "enter username", strL "enter password", strL "click login"]
      (strL "dashboard is shown") (by decide) (by decide) (by decide)).trans
    (by decide), by decide, by decide, by decide, by decide⟩

/-- Success case of the retry loop: with failures on every attempt before k
and a success at attempt k within the budget, the loop returns the attempt-k
outcome after sleeping the doubling schedule between attempts. -/
theorem retryGo_success {A : Type} (calls : Nat → Except (List Char) A)
    (max : Nat) (rem : Nat) :
    ∀ (attempt : Nat) (sleeps : List ℚ) (k : Nat),
    max = attempt + rem → attempt ≤ k → k < max →
    (∀ j, attempt ≤ j → j < k → ∃ e, calls j = Except.error e) →
    (∃ a, calls k = Except.ok a) →
    retryGo calls max rem attempt sleeps =
      (some (calls k),
       sleeps ++ (List.range (k - attempt)).map
         (fun i => API_DELAY * 2 ^ (attempt + i))) := by
  induction rem with
  | zero => intro attempt sleeps k hmax hak hk hfail hok; omega
  | succ n ih =>
    intro attempt sleeps k hmax hak hk hfail hok
    cases hcall : calls attempt with
    | ok a =>
      have hka : attempt = k := by
        by_contra hne
        obtain ⟨e, he⟩ := hfail attempt (Nat.le_refl _) (by omega)
        rw [hcall] at he
        exact Except.noConfusion he
      subst hka
      simp only [retryGo, hcall]
      simp [Nat.sub_self]
    | error e =>
      have hlt : attempt < k := by
        rcases Nat.lt_or_ge attempt k with h | h
        · exact h
        · obtain ⟨a, ha⟩ := hok
          have heq : attempt = k := by omega
          rw [heq, ha] at hcall
          exact Except.noConfusion hcall
      have hne2 : ¬ attempt = max - 1 := by omega
      simp only [retryGo, hcall, if_neg hne2]
      rw [ih (attempt + 1) (sleeps ++ [API_DELAY * 2 ^ attempt]) k (by omega)
        (by omega) hk (fun j hj1 hj2 => hfail j (by omega) hj2) hok]
      have hrange : k - attempt = (k - (attempt + 1)) + 1 := by omega
      rw [hrange, List.range_succ_eq_map, List.map_cons, List.map_map]
      have hmap : (List.range (k - (attempt + 1))).map
          ((fun i => API_DELAY * 2 ^ (attempt + i)) ∘ Nat.succ) =
          (List.range (k - (attempt + 1))).map
          (fun i => API_DELAY * 2 ^ (attempt + 1 + i)) := by
        refine List.map_congr_left (fun a _ => ?_)
        rw [Function.comp_apply]
        have hexp : attempt + Nat.succ a = attempt + 1 + a := by omega
        rw [hexp]
      rw [hmap]
      simp [List.append_assoc, Nat.add_zero]

/-- Failure case of the retry loop: with failures on every attempt of the
budget, the loop re-raises the outcome of the last attempt after sleeping
the doubling schedule between all earlier attempts. -/
theorem retryGo_allfail {A : Type} (calls : Nat → Except (List Char) A)
    (max : Nat) (rem : Nat) :
    ∀ (attempt : Nat) (sleeps : List ℚ),
    max = attempt + rem → 1 ≤ rem →
    (∀ j, attempt ≤ j → j < max → ∃ e, calls j = Except.error e) →
    retryGo calls max rem attempt sleeps =
      (some (calls (max - 1)),
       sleeps ++ (List.range (max - 1 - attempt)).map
         (fun i => API_DELAY * 2 ^ (attempt + i))) := by
  induction rem with
  | zero => intro attempt sleeps hmax hrem hfail; omega
  | succ n ih =>
    intro attempt sleeps hmax hrem hfail
    obtain ⟨e, he⟩ := hfail attempt (Nat.le_refl _) (by omega)
    by_cases hlast : attempt = max - 1
    · simp only [retryGo, he, if_pos hlast]
      have hce : calls (max - 1) = Except.error e := hlast ▸ he
      rw [hce]
      have hz : max - 1 - attempt = 0 := by omega
      rw [hz]
      simp
    · simp only [retryGo, he, if_neg hlast]
      rw [ih (attempt + 1) (sleeps ++ [API_DELAY * 2 ^ attempt]) (by omega)
        (by omega) (fun j hj1 hj2 => hfail j (by omega) hj2)]
      have hrange : max - 1 - attempt = (max - 1 - (attempt + 1)) + 1 := by omega
      rw [hrange, List.range_succ_eq_map, List.map_cons, List.map_map]
      have hmap : (List.range (max - 1 - (attempt + 1))).map
          ((fun i => API_DELAY * 2 ^ (attempt + i)) ∘ Nat.succ) =
          (List.range (max - 1 - (attempt + 1))).map
          (fun i => API_DELAY * 2 ^ (attempt + 1 + i)) := by
        refine List.map_congr_left (fun a _ => ?_)
        rw [Function.comp_apply]
        have hexp : attempt + Nat.succ a = attempt + 1 + a := by omega
        rw [hexp]
      rw [hmap]
      simp [List.append_assoc, Nat.add_zero]

/-- Claim C9, amended: the retry wrapper attempts the call up to the
configured maximum, sleeping the base delay times two to the k before retry
k (k from zero), returns the first successful result, and re-raises the last
error only after the final attempt; but phase 1 does not route model calls
through it — generate_test_case_with_gemini_backend performs one direct call
and converts its failure to the call-failure sentinel, and a story whose
call fails still yields the single fail-soft record. -/
theorem claim9_retry_wrapper_behavior (calls : Nat → Except (List Char) (List Char)) (max k : Nat) :
    (k < max → (∀ j, j < k → ∃ e, calls j = Except.error e) →
      (∃ a, calls k = Except.ok a) →
      retry_api_call calls max =
        (some (calls k), (List.range k).map (fun i => API_DELAY * 2 ^ i))) ∧
    (1 ≤ max → (∀ j, j < max → ∃ e, calls j = Except.error e) →
      retry_api_call calls max =
        (some (calls (max - 1)),
         (List.range (max - 1)).map (fun i => API_DELAY * 2 ^ i))) ∧
    (∀ (e usid title : List Char),
      parse_comprehensive_test_cases
        (generate_test_case_with_gemini_backend true true (Except.error e)).1
        usid title = [sentinelRecord usid title]) := by
  refine ⟨fun hk hfail hok => ?_, fun hm hfail => ?_, fun e usid title => ?_⟩
  · rw [retry_api_call, retryGo_success calls max max 0 [] k (by omega)
      (Nat.zero_le k) hk (fun j _ hj => hfail j hj) hok]
    simp
  · rw [retry_api_call, retryGo_allfail calls max max 0 [] (by omega) hm
      (fun j _ hj => hfail j hj)]
    simp
  · have h1 : (generate_test_case_with_gemini_backend true true
        (Except.error e)).1 = strL "ERROR_API_CALL_FAILED_TEST_CASES" := rfl
    rw [h1]
    simp [parse_comprehensive_test_cases,
      show litAt (strL "ERROR_API_CALL_FAILED_TEST_CASES") 0 (strL "ERROR_") false
        = true from by decide]

/-- Claim C9, counterexample: with a service that fails on the first call
and succeeds on the second, the retry wrapper returns the success, while the
phase-1 backend — which calls the service once, directly, with no wrapper —
returns the call-failure sentinel: the model call of phase 1 does not go
through the bounded-retry wrapper. -/
theorem claim9_counterexample :
    (retry_api_call (fun n => if n = 0 then Except.error (strL "transient")
        else Except.ok (strL "S.No: 1\nok")) 3).1 =
      some (Except.ok (strL "S.No: 1\nok")) ∧
    generate_test_case_with_gemini_backend true true
        (Except.error (strL "transient")) =
      (strL "ERROR_API_CALL_FAILED_TEST_CASES",
       strL "ERROR_API_CALL_FAILED_TEST_CASES") :=
  ⟨rfl, rfl⟩

/-- Witness for claim C9: concrete wrapper run with one failure then one
success, and fail-soft parsing of a failed backend call. -/
theorem claim9_witness :
    retry_api_call (fun n => if n = 0 then Except.error (strL "transient")
        else Except.ok (strL "done")) 3 =
      (some ((fun n => if n = 0 then Except.error (strL "transient")
        else Except.ok (strL "done")) 1),
       (List.range 1).map (fun i => API_DELAY * 2 ^ i)) ∧
    parse_comprehensive_test_cases
      (generate_test_case_with_gemini_backend true true
        (Except.error (strL "boom"))).1 (strL "U") (strL "T") =
      [sentinelRecord (strL "U") (strL "T")] :=
  ⟨(claim9_retry_wrapper_behavior _ 3 1).1 (by omega)
     (fun j hj => ⟨strL "transient", by
        have hj0 : j = 0 := by omega
        subst hj0
        rfl⟩)
     ⟨strL "done", rfl⟩,
   (claim9_retry_wrapper_behavior (fun _ => Except.error []) 3 1).2.2
     (strL "boom") (strL "U") (strL "T")⟩

/-- Claim C10: sentinel classification everywhere is decided solely by the
ERROR_ string prefix.  The parser takes its fail-soft branch exactly when the
input starts with ERROR_ (genuine content beginning with ERROR_ included),
and otherwise runs the structured strategies even when ERROR_ occurs later
in the text; the aggregator discards a step or result field exactly when the
stripped field is empty or starts with ERROR_, and otherwise uses its lines
even when ERROR_ occurs after position zero. -/
theorem claim10_error_prefix_classification (t usid title fld : List Char) :
    (litAt t 0 (strL "ERROR_") false = true →
      parse_comprehensive_test_cases t usid title = [sentinelRecord usid title]) ∧
    (litAt t 0 (strL "ERROR_") false = false →
      parse_comprehensive_test_cases t usid title = parseStructured t usid title) ∧
    (hasErrMark (pyStrip fld) = true →
      recordStepContribution fld = [] ∧ recordResultContribution fld = none) ∧
    (hasErrMark (pyStrip fld) = false → pyStrip fld ≠ [] →
      recordStepContribution fld = cleanedStepLines (pyStrip fld) ∧
      recordResultContribution fld =
        ((((splitNl (pyStrip fld)).map pyStrip).filter
          (fun l => l ≠ [])).getLast?).map clean_step_text_for_gherkin) := by
  refine ⟨fun h => by simp [parse_comprehensive_test_cases, h],
    fun h => by simp [parse_comprehensive_test_cases, h],
    fun h => ⟨by simp [recordStepContribution, h],
      by simp [recordResultContribution, h]⟩,
    fun h hne => ⟨by simp [recordStepContribution, h, hne],
      by simp [recordResultContribution, h, hne]⟩⟩

/-- Witness for claim C10: genuine content starting with ERROR_ is treated
as a sentinel by the parser; a field carrying ERROR_ only after position
zero contributes its cleaned lines normally; a sentinel field contributes
nothing. -/
theorem claim10_witness :
    parse_comprehensive_test_cases (strL "ERROR_ codes: this text is genuine")
      (strL "U") (strL "T") = [sentinelRecord (strL "U") (strL "T")] ∧
    parse_comprehensive_test_cases (strL "see ERROR_X later") (strL "U")
      (strL "T") = parseStructured (strL "see ERROR_X later") (strL "U")
      (strL "T") ∧
    (recordStepContribution (strL "ERROR_API_NOT_AVAILABLE_TEST_CASES") = [] ∧
     recordResultContribution (strL "ERROR_API_NOT_AVAILABLE_TEST_CASES") =
       none) ∧
    recordStepContribution (strL "do ERROR_ stuff") =
      cleanedStepLines (pyStrip (strL "do ERROR_ stuff")) :=
  ⟨(claim10_error_prefix_classification (strL "ERROR_ codes: this text is genuine")
      (strL "U") (strL "T") []).1 (by decide),
   (claim10_error_prefix_classification (strL "see ERROR_X later") (strL "U")
      (strL "T") []).2.1 (by decide),
   (claim10_error_prefix_classification [] (strL "U") (strL "T")
      (strL "ERROR_API_NOT_AVAILABLE_TEST_CASES")).2.2.1 (by decide),
   ((claim10_error_prefix_classification [] (strL "U") (strL "T")
      (strL "do ERROR_ stuff")).2.2.2 (by decide) (by decide)).1⟩
